import Mathlib

/-!
Shallow embedding of the syft-job execution engine (src/syft_job/runner.py)
and of the directory-based approval workflow (src/syft_job/client.py), with
theorems checking the natural-language specification against the code.

Filesystem facts (which paths exist, what the child process did, which files
ended up under outputs/) are inputs to the embedded functions, so each
function is a pure image of the corresponding Python control flow.
-/

namespace SyftJob

/-- Python insertion-ordered dict over string keys: inserting an existing key
updates the binding in place, a new key is appended at the end. -/
def dictInsert {α : Type} (m : List (String × α)) (k : String) (v : α) :
    List (String × α) :=
  if m.any (fun p => p.1 == k) then
    m.map (fun p => if p.1 == k then (k, v) else p)
  else
    m ++ [(k, v)]

/-- Lookup in the Python-dict model (first binding found wins; dicts built via
dictInsert keep keys unique). -/
def dictLookup {α : Type} (m : List (String × α)) (k : String) : Option α :=
  (m.find? (fun p => p.1 == k)).map (fun p => p.2)

/-- Python dict merge: fold the second dict into the first in insertion order,
as a dict literal with a double-star unpacking does. -/
def dictUpdate {α : Type} (m m2 : List (String × α)) : List (String × α) :=
  m2.foldl (fun acc p => dictInsert acc p.1 p.2) m

/-- Keys of a dict model. -/
def dictKeys {α : Type} (m : List (String × α)) : List String :=
  m.map (fun p => p.1)

/-- Job lifecycle status (models.JobStatus). -/
inductive JobStatus
  | pending
  | running
  | completed
  | failed
  | cancelled
deriving DecidableEq, Repr

/-- Result record of a job (models.JobResult). The datetime fields
(start_time, end_time, duration) and the free-form metadata are omitted:
no claim under verification mentions them. -/
structure JobResult where
  job_id : String
  status : JobStatus
  output : Option String := none
  error : Option String := none
  exit_code : Option Int := none
  artifacts : List String := []
deriving DecidableEq, Repr

/-- Behavior of the supervised child, as observed by process.communicate
under the declared timeout in JobRunner._run_job_sync: either communicate
returns (exit code, stdout, stderr) within the timeout, or TimeoutExpired is
raised and, after process.kill(), the drained partial stdout/stderr are
returned by the second communicate call. -/
inductive ProcOutcome
  | normal (exitCode : Int) (stdout stderr : String)
  | timedOut (stdout stderr : String)
deriving DecidableEq, Repr

/-- Observable side effects of one _run_job_sync call, in program order:
process.kill() on timeout, shutil.rmtree of the workspace in the finally
block, and the final registry store jobs[job_id] = result. -/
inductive RunEvent
  | killProcess
  | deleteWorkspace
  | recordResult
deriving DecidableEq, Repr

/-- Everything one _run_job_sync call depends on: the job id and timeout, the
outcome of _prepare_job_environment (ok, or the raised exception message),
the child process behavior, the regular files found under outputs/ after
execution, the runner cleanup flag, and whether the workspace directory
exists when the finally block runs. -/
structure RunInput where
  jobId : String
  timeout : Nat
  prep : Except String Unit
  outcome : ProcOutcome
  artifacts : List String
  cleanup : Bool
  workspaceExists : Bool
deriving Repr

/-- One synchronous job execution (JobRunner._run_job_sync). Mirrors the
source control flow: on a preparation exception the result is failed with
the exception message and exit code -1; on TimeoutExpired the child is
killed, status/error/exit code are set to failed / timeout message / -1, and
then the common tail (lines 300-304 of runner.py) overwrites output, error
(stderr if stderr else None), exit code, status (completed iff exit code 0)
and artifacts; the finally block deletes the workspace when cleanup is on,
the job id truthy and the directory exists; last of all the result is stored
in the jobs registry. Returns the result and the ordered side-effect
trace. -/
def runJobSync (inp : RunInput) : JobResult × List RunEvent :=
  let base : JobResult := { job_id := inp.jobId, status := JobStatus.running }
  let (result, evs) :=
    match inp.prep with
    | Except.error e =>
      ({ base with status := JobStatus.failed, error := some e,
                   exit_code := some (-1) },
       ([] : List RunEvent))
    | Except.ok _ =>
      let (exitCode, stdout, stderr, r0, evs0) :=
        match inp.outcome with
        | ProcOutcome.normal code out err =>
          (code, out, err, base, ([] : List RunEvent))
        | ProcOutcome.timedOut out err =>
          ((-1 : Int), out, err,
           { base with
               status := JobStatus.failed,
               error := some ("Job timed out after " ++ toString inp.timeout
                 ++ " seconds") },
           [RunEvent.killProcess])
      ({ r0 with
          output := some stdout,
          error := if stderr != "" then some stderr else none,
          exit_code := some exitCode,
          status := if exitCode == 0 then JobStatus.completed else JobStatus.failed,
          artifacts := inp.artifacts },
       evs0)
  let evs :=
    if inp.cleanup && inp.jobId != "" && inp.workspaceExists then
      evs ++ [RunEvent.deleteWorkspace]
    else evs
  (result, evs ++ [RunEvent.recordResult])

/-- Stderr captured from the child, whichever way communicate returned. -/
def stderrOf : ProcOutcome → String
  | ProcOutcome.normal _ _ err => err
  | ProcOutcome.timedOut _ err => err

/-- Concrete input for the C1 witness: a job whose child outlives its
2-second timeout, with partial output captured. -/
def c1Inp : RunInput :=
  { jobId := "job-1", timeout := 2, prep := Except.ok (),
    outcome := ProcOutcome.timedOut "partial out" "partial err",
    artifacts := [], cleanup := true, workspaceExists := true }

/-- Concrete input for C3: the child exits with code 2 and an empty stderr,
leaving a partial artifact behind. -/
def c3Inp : RunInput :=
  { jobId := "job-3", timeout := 300, prep := Except.ok (),
    outcome := ProcOutcome.normal 2 "some out" "",
    artifacts := ["outputs/part.csv"], cleanup := false,
    workspaceExists := true }

/-- Concrete input for C7: a successful job run with cleanup enabled. -/
def c7Inp : RunInput :=
  { jobId := "job-7", timeout := 300, prep := Except.ok (),
    outcome := ProcOutcome.normal 0 "done" "",
    artifacts := ["outputs/model.bin"], cleanup := true,
    workspaceExists := true }

/-- Semantics of pathlib mkdir(parents=True, exist_ok=True) over the set of
existing directories: it never raises, and creates the directory when
absent. -/
def mkdirParentsExistOk (dirs : List String) (path : String) :
    Except String (List String) :=
  Except.ok (if dirs.contains path then dirs else dirs ++ [path])

/-- Workspace-directory creation step of JobRunner._prepare_job_environment
(runner.py lines 104-105): job_workspace = self.job_dir / job.job_id
followed by job_workspace.mkdir(parents=True, exist_ok=True). The argument
dirs lists the directories that exist before the call. -/
def prepare_workspace_dir (dirs : List String) (jobDirRoot jobId : String) :
    Except String (List String) :=
  mkdirParentsExistOk dirs (jobDirRoot ++ "/" ++ jobId)

/-- Python str.upper(): uppercase every character of the string. -/
def pyUpper (s : String) : String := String.mk (s.data.map Char.toUpper)

/-- Input-resolution loop of _prepare_job_environment (runner.py lines
119-124): for each declared input, resolve its URL and bind the uppercased
variable name to the resolved local path. The resolve argument models the
return value of JobRunner.resolve_syft_url. -/
def input_env_vars (inputs : List (String × String))
    (resolve : String → String) : List (String × String) :=
  inputs.foldl (fun m p => dictInsert m (pyUpper p.1) (resolve p.2)) []

/-- Environment assembly of _prepare_job_environment (runner.py lines
130-135): a dict literal binding CODE_DIR and OUTPUT_DIR followed by a
double-star unpacking of input_env_vars, whose bindings therefore win on any
name collision; the code performs no collision check. -/
def job_env_vars (codeDirStr outputsDirStr : String)
    (ivars : List (String × String)) : List (String × String) :=
  dictUpdate (dictInsert (dictInsert [] "CODE_DIR" codeDirStr)
    "OUTPUT_DIR" outputsDirStr) ivars

/-- Side effects of JobRunner.cancel_job on the child process:
process.terminate(), process.wait(timeout=5), and process.kill() when the
wait raises TimeoutExpired. -/
inductive CancelEvent
  | terminate
  | waitGrace (seconds : Nat)
  | kill
deriving DecidableEq, Repr

/-- Engine-owned mutable state of JobRunner: the jobs registry
(self.jobs) and the running-process table (self._running_processes; only the
ids matter here). -/
structure RunnerState where
  jobs : List (String × JobResult)
  running : List String
deriving DecidableEq, Repr

/-- JobRunner.cancel_job: when a process is running for the id, terminate
it, wait a 5-second grace period, kill it if it has not exited
(childExitsInGrace tells whether it did), set the registry entry to
cancelled when one already exists, and return True; otherwise do nothing and
return False. -/
def cancel_job (st : RunnerState) (jobId : String)
    (childExitsInGrace : Bool) : RunnerState × Bool × List CancelEvent :=
  if st.running.contains jobId then
    let evs := [CancelEvent.terminate, CancelEvent.waitGrace 5] ++
      (if childExitsInGrace then [] else [CancelEvent.kill])
    let jobs :=
      if st.jobs.any (fun p => p.1 == jobId) then
        st.jobs.map (fun p =>
          if p.1 == jobId then (p.1, { p.2 with status := JobStatus.cancelled })
          else p)
      else st.jobs
    ({ st with jobs := jobs }, true, evs)
  else (st, false, [])

/-- Interleaving of a cancel request with the supervising thread of a
running job: cancel_job fires while the id is in the running table but
before _run_job_sync has stored anything in the registry; the killed child
then makes communicate return, and the supervising thread finishes
_run_job_sync, removing the id from the running table and storing its own
result in the registry. Returns the final state and the value cancel_job
returned. -/
def cancelWhileRunning (st : RunnerState) (inp : RunInput)
    (childExitsInGrace : Bool) : RunnerState × Bool :=
  let c := cancel_job st inp.jobId childExitsInGrace
  let st1 := c.1
  let r := (runJobSync inp).1
  ({ jobs := dictInsert st1.jobs inp.jobId r,
     running := st1.running.filter (fun x => x != inp.jobId) }, c.2.1)

/-- Concrete state for C5: one job being supervised, nothing recorded yet. -/
def c5St : RunnerState := { jobs := [], running := ["job-5"] }

/-- Concrete input for C5: after the cancel kills the child, communicate
returns the signal exit code -15. -/
def c5Inp : RunInput :=
  { jobId := "job-5", timeout := 300, prep := Except.ok (),
    outcome := ProcOutcome.normal (-15) "" "Terminated",
    artifacts := [], cleanup := false, workspaceExists := true }

/-- Per-participant approval directories: the job names physically present
in each of the three stage directories inbox, approved and done
(client.py / config.py layout for app_data/job of one user). -/
structure ApprovalFS where
  inbox : List String
  approved : List String
  done : List String
deriving DecidableEq, Repr

/-- Errors JobInfo.accept_by_depositing_result raises: ValueError when the
entry is not in inbox status, FileNotFoundError when the result file does
not exist. -/
inductive AcceptError
  | invalidState (msg : String)
  | fileNotFound (msg : String)
deriving DecidableEq, Repr

/-- Filesystem mutations accept_by_depositing_result performs, in program
order: mkdir of the done stage directory (parents=True, exist_ok=True),
shutil.move of the job directory from its current location into done, mkdir
of the outputs subdirectory inside the moved directory, and shutil.copy2 of
the result file into outputs. -/
inductive FSOp
  | mkdirDoneParent
  | moveJobDir (name : String)
  | mkdirOutputs (name : String)
  | copyResult (name : String) (file : String)
deriving DecidableEq, Repr

/-- Outcome of one accept_by_depositing_result call: the returned
destination path or the raised error, the approval directories afterwards,
and the ordered list of filesystem mutations performed. -/
structure AcceptOutcome where
  result : Except AcceptError String
  fs : ApprovalFS
  ops : List FSOp
deriving Repr

/-- JobInfo.accept_by_depositing_result (client.py lines 28-71) for an
entry scanned with the given status and job name: raise ValueError unless
the status is inbox; raise FileNotFoundError unless the result file exists;
otherwise ensure the done stage directory exists, move the job directory
from inbox to done, create outputs inside it and copy the result file
there, returning the destination path. Both error paths return before any
filesystem mutation. -/
def accept_by_depositing_result (fs : ApprovalFS) (entryStatus name : String)
    (filePath : String) (resultFileExists : Bool) : AcceptOutcome :=
  if entryStatus != "inbox" then
    { result := Except.error (AcceptError.invalidState
        ("Job " ++ name ++ " is not in inbox status, current: " ++ entryStatus)),
      fs := fs, ops := [] }
  else if !resultFileExists then
    { result := Except.error (AcceptError.fileNotFound
        ("Result file not found: " ++ filePath)),
      fs := fs, ops := [] }
  else
    let fs1 : ApprovalFS :=
      { inbox := fs.inbox.filter (fun n => n != name),
        approved := fs.approved,
        done := fs.done ++ [name] }
    { result := Except.ok ("done/" ++ name ++ "/outputs/" ++ filePath),
      fs := fs1,
      ops := [FSOp.mkdirDoneParent, FSOp.moveJobDir name,
        FSOp.mkdirOutputs name, FSOp.copyResult name filePath] }

/-- JobClient.submit_bash_job (client.py lines 851-877) at the directory
level: fail with FileExistsError when the job name already exists in that
participant inbox, otherwise create the job directory (with run.sh and
config.yaml) in the inbox. Only the inbox is consulted. -/
def submit_bash_job (fs : ApprovalFS) (name : String) :
    Except String ApprovalFS :=
  if fs.inbox.contains name then
    Except.error ("Job " ++ name ++ " already exists in inbox for user")
  else
    Except.ok { fs with inbox := fs.inbox ++ [name] }

/-- The filesystem facts _process_custom_run_script consults: whether a
path exists and whether a path is a directory. -/
structure FileSys where
  fileExists : String → Bool
  isDir : String → Bool

/-- How the materializer treats the declared run script: as literal inline
content, or as content to load from the script file at the given path. -/
inductive ScriptSource
  | inline (content : String)
  | fromFile (path : String)
deriving DecidableEq, Repr

/-- Prefixes that make _process_custom_run_script treat the string as
inline content immediately (runner.py line 179). -/
def inlinePrefixes : List String :=
  ["#!/bin/bash", "#!", "echo ", "python ", "go ", "cd "]

/-- Python membership test of a newline character in the string (the
newline char is written by code point to stay kernel-reducible). -/
def hasNewline (s : String) : Bool := s.data.contains (Char.ofNat 10)

/-- POSIX pathlib is_absolute: the path starts with a slash. -/
def isAbsolute (s : String) : Bool :=
  match s.data with
  | [] => false
  | c :: _ => c == Char.ofNat 47

/-- Split a character list at slashes. -/
def splitSlash : List Char → List (List Char)
  | [] => [[]]
  | c :: cs =>
    let r := splitSlash cs
    if c == Char.ofNat 47 then [] :: r
    else
      match r with
      | [] => [[c]]
      | h :: t => (c :: h) :: t

/-- pathlib Path name: the final path component, ignoring the empty
components that duplicate or trailing slashes produce. -/
def baseName (s : String) : String :=
  match ((splitSlash s.data).filter (fun c => c != ([] : List Char))).getLast? with
  | some l => String.mk l
  | none => s

/-- Script classification of JobRunner._process_custom_run_script
(runner.py lines 172-204): a string starting with one of the inline
prefixes or containing a newline is inline content; otherwise it is tried
as a path - as given and, when relative and nonexistent, by looking up its
bare filename inside the configured code location provided that location is
truthy, exists and is a directory - loading the file when the final
candidate exists and falling back to inline content otherwise. -/
def classifyRunScript (fs : FileSys) (code : Option String) (s : String) :
    ScriptSource :=
  if inlinePrefixes.any (fun p => p.data.isPrefixOf s.data) || hasNewline s then
    ScriptSource.inline s
  else
    let sp :=
      if !isAbsolute s && !fs.fileExists s then
        match code with
        | some c =>
          if c != "" && fs.fileExists c && fs.isDir c then
            if fs.fileExists (c ++ "/" ++ baseName s) then
              c ++ "/" ++ baseName s
            else s
          else s
        | none => s
      else s
    if fs.fileExists sp then ScriptSource.fromFile sp
    else ScriptSource.inline s

/-- Concrete filesystem for the C9 counterexample: a single existing file
whose name begins with the word echo and a space. -/
def c9Fs : FileSys :=
  { fileExists := fun s => s == "echo hi", isDir := fun _ => false }

/-- Concrete filesystem for the C9 witness: an ordinary script file. -/
def c9Fs2 : FileSys :=
  { fileExists := fun s => s == "run.sh", isDir := fun _ => false }

end SyftJob

namespace SyftJob

/-- A dict whose bindings all avoid the key k keeps a freshly appended
binding for k visible to lookup. -/
theorem dictLookup_append_single {α : Type} (m : List (String × α))
    (k : String) (v : α) (h : m.any (fun p => p.1 == k) = false) :
    dictLookup (m ++ [(k, v)]) k = some v := by
  induction m with
  | nil => simp [dictLookup]
  | cons hd tl ih =>
    simp only [List.any_cons, Bool.or_eq_false_iff] at h
    simp only [List.cons_append, dictLookup, List.find?_cons, h.1]
    exact ih h.2

/-- In-place update of an existing key: the updated binding is found. -/
theorem find?_map_updateFn_self {α : Type} (m : List (String × α))
    (k : String) (v : α) (h : m.any (fun p => p.1 == k) = true) :
    (m.map (fun p => if p.1 == k then (k, v) else p)).find?
      (fun p => p.1 == k) = some (k, v) := by
  induction m with
  | nil => simp at h
  | cons hd tl ih =>
    simp only [List.map_cons]
    by_cases hhd : hd.1 = k
    · rw [if_pos (show (hd.1 == k) = true by simp [hhd]), List.find?_cons]
      simp
    · have h2 : tl.any (fun p => p.1 == k) = true := by
        simpa [List.any_cons, hhd] using h
      rw [if_neg (show ¬ (hd.1 == k) = true by simp [hhd]), List.find?_cons]
      have hb : (hd.1 == k) = false := by simp [hhd]
      rw [hb]
      exact ih h2

/-- In-place update of key k is invisible to a lookup of a different key. -/
theorem find?_map_updateFn_ne {α : Type} (m : List (String × α))
    (k k2 : String) (v : α) (h : k2 ≠ k) :
    (m.map (fun p => if p.1 == k then (k, v) else p)).find?
      (fun p => p.1 == k2) = m.find? (fun p => p.1 == k2) := by
  induction m with
  | nil => rfl
  | cons hd tl ih =>
    simp only [List.map_cons]
    by_cases hhd : hd.1 = k
    · rw [if_pos (show (hd.1 == k) = true by simp [hhd])]
      rw [List.find?_cons, List.find?_cons]
      have hb1 : (k == k2) = false := by simp [Ne.symm h]
      have hb2 : (hd.1 == k2) = false := by simp [hhd, Ne.symm h]
      rw [hb1, hb2]
      exact ih
    · rw [if_neg (show ¬ (hd.1 == k) = true by simp [hhd])]
      rw [List.find?_cons, List.find?_cons]
      by_cases hp : hd.1 = k2
      · rw [show (hd.1 == k2) = true by simp [hp]]
      · rw [show (hd.1 == k2) = false by simp [hp]]
        exact ih

/-- Appending a binding for key k is invisible to a lookup of a different
key. -/
theorem dictLookup_append_ne {α : Type} (m : List (String × α))
    (k k2 : String) (v : α) (h : k2 ≠ k) :
    dictLookup (m ++ [(k, v)]) k2 = dictLookup m k2 := by
  induction m with
  | nil =>
    unfold dictLookup
    rw [List.nil_append, List.find?_cons]
    rw [show (k == k2) = false by simp [Ne.symm h]]
  | cons hd tl ih =>
    simp only [List.cons_append]
    unfold dictLookup
    rw [List.find?_cons, List.find?_cons]
    by_cases hp : hd.1 = k2
    · rw [show (hd.1 == k2) = true by simp [hp]]
    · rw [show (hd.1 == k2) = false by simp [hp]]
      exact ih

/-- Characterization of lookup after a Python-dict insertion. -/
theorem dictLookup_dictInsert {α : Type} (m : List (String × α))
    (k k2 : String) (v : α) :
    dictLookup (dictInsert m k v) k2 =
      if k2 = k then some v else dictLookup m k2 := by
  unfold dictInsert
  by_cases hany : m.any (fun p => p.1 == k) = true
  · rw [if_pos hany]
    by_cases hk : k2 = k
    · subst hk
      unfold dictLookup
      rw [find?_map_updateFn_self m k2 v hany]
      simp
    · rw [if_neg hk]
      unfold dictLookup
      rw [find?_map_updateFn_ne m k k2 v hk]
  · rw [if_neg hany]
    have hf : m.any (fun p => p.1 == k) = false := by
      cases hb : m.any (fun p => p.1 == k) with
      | false => rfl
      | true => exact absurd hb hany
    by_cases hk : k2 = k
    · subst hk
      rw [dictLookup_append_single m k2 v hf, if_pos rfl]
    · rw [dictLookup_append_ne m k k2 v hk, if_neg hk]

/-- Unfolding of dict merge on a cons cell. -/
theorem dictUpdate_cons {α : Type} (m : List (String × α))
    (hd : String × α) (tl : List (String × α)) :
    dictUpdate m (hd :: tl) = dictUpdate (dictInsert m hd.1 hd.2) tl := rfl

/-- A key present before a dict merge is still present afterwards. -/
theorem dictLookup_isSome_dictUpdate {α : Type} (m2 m : List (String × α))
    (k : String) (h : (dictLookup m k).isSome = true) :
    (dictLookup (dictUpdate m m2) k).isSome = true := by
  induction m2 generalizing m with
  | nil => exact h
  | cons hd tl ih =>
    rw [dictUpdate_cons]
    apply ih
    rw [dictLookup_dictInsert]
    by_cases hk : k = hd.1
    · simp [hk]
    · simp [hk, h]

/-- A dict merge whose right side never binds k leaves the binding of k
unchanged. -/
theorem dictLookup_dictUpdate_not_mem {α : Type} (m2 m : List (String × α))
    (k : String) (h : k ∉ dictKeys m2) :
    dictLookup (dictUpdate m m2) k = dictLookup m k := by
  induction m2 generalizing m with
  | nil => rfl
  | cons hd tl ih =>
    rw [dictUpdate_cons]
    simp only [dictKeys, List.map_cons, List.mem_cons, not_or] at h
    obtain ⟨h1, h2⟩ := h
    rw [ih _ (by simpa [dictKeys] using h2), dictLookup_dictInsert, if_neg h1]

/-- A binding of the right side of a dict merge (with duplicate-free keys)
wins over whatever the left side bound. -/
theorem dictLookup_dictUpdate_of_mem {α : Type} (m2 m : List (String × α))
    (k : String) (v : α) (hn : (dictKeys m2).Nodup)
    (h : dictLookup m2 k = some v) :
    dictLookup (dictUpdate m m2) k = some v := by
  induction m2 generalizing m with
  | nil => simp [dictLookup] at h
  | cons hd tl ih =>
    rw [dictUpdate_cons]
    simp only [dictKeys, List.map_cons, List.nodup_cons] at hn
    obtain ⟨hnm, hnt⟩ := hn
    by_cases hk : hd.1 = k
    · have hv : some hd.2 = some v := by
        simpa [dictLookup, List.find?_cons, hk] using h
      have hkt : k ∉ dictKeys tl := by
        rw [← hk]
        simpa [dictKeys] using hnm
      rw [dictLookup_dictUpdate_not_mem tl _ k hkt, dictLookup_dictInsert,
        if_pos hk.symm]
      exact hv
    · have h2 : dictLookup tl k = some v := by
        simpa [dictLookup, List.find?_cons, hk] using h
      exact ih _ hnt h2

/-- Keys after a Python-dict insertion. -/
theorem dictKeys_dictInsert {α : Type} (m : List (String × α))
    (k : String) (v : α) :
    dictKeys (dictInsert m k v) =
      if m.any (fun p => p.1 == k) = true then dictKeys m
      else dictKeys m ++ [k] := by
  unfold dictInsert dictKeys
  by_cases hany : m.any (fun p => p.1 == k) = true
  · rw [if_pos hany, if_pos hany, List.map_map]
    refine List.map_congr_left ?_
    intro p hp
    by_cases hpk : p.1 = k <;> simp [hpk]
  · rw [if_neg hany, if_neg hany, List.map_append]
    rfl

/-- A Python-dict insertion preserves duplicate-freeness of the keys. -/
theorem dictKeys_nodup_dictInsert {α : Type} (m : List (String × α))
    (k : String) (v : α) (h : (dictKeys m).Nodup) :
    (dictKeys (dictInsert m k v)).Nodup := by
  rw [dictKeys_dictInsert]
  by_cases hany : m.any (fun p => p.1 == k) = true
  · rwa [if_pos hany]
  · rw [if_neg hany]
    have hk : k ∉ dictKeys m := by
      intro hmem
      apply hany
      simp only [dictKeys, List.mem_map] at hmem
      obtain ⟨p, hp, hpk⟩ := hmem
      exact List.any_eq_true.mpr ⟨p, hp, by simp [hpk]⟩
    simp [List.nodup_append, h, hk]

/-- The input environment built by _prepare_job_environment has
duplicate-free keys. -/
theorem input_env_vars_keys_nodup (inputs : List (String × String))
    (resolve : String → String) :
    (dictKeys (input_env_vars inputs resolve)).Nodup := by
  unfold input_env_vars
  have aux : ∀ (l : List (String × String)) (m : List (String × String)),
      (dictKeys m).Nodup →
      (dictKeys (l.foldl
        (fun m p => dictInsert m (pyUpper p.1) (resolve p.2)) m)).Nodup := by
    intro l
    induction l with
    | nil => intro m h; exact h
    | cons hd tl ih =>
      intro m h
      exact ih _ (dictKeys_nodup_dictInsert _ _ _ h)
  exact aux inputs [] (by simp [dictKeys])

/-- C1: for every job whose child exceeds its declared timeout, _run_job_sync
kills the child, the terminal status is failed, the exit code is the sentinel
-1, the partial stdout is preserved in the output field and the partial
stderr, when non-empty, in the error field. -/
theorem timeout_kill_failed_c1 (inp : RunInput) (out err : String)
    (hprep : inp.prep = Except.ok ())
    (hout : inp.outcome = ProcOutcome.timedOut out err) :
    RunEvent.killProcess ∈ (runJobSync inp).2 ∧
    (runJobSync inp).1.status = JobStatus.failed ∧
    (runJobSync inp).1.exit_code = some (-1) ∧
    (runJobSync inp).1.output = some out ∧
    (runJobSync inp).1.error = (if err != "" then some err else none) := by
  simp only [runJobSync, hprep, hout]
  refine ⟨?_, by simp, by simp, by simp, by simp⟩
  split <;> simp

/-- Witness for C1: the timeout theorem applied at a concrete input. -/
theorem timeout_kill_failed_c1_witness :
    RunEvent.killProcess ∈ (runJobSync c1Inp).2 ∧
    (runJobSync c1Inp).1.status = JobStatus.failed ∧
    (runJobSync c1Inp).1.exit_code = some (-1) ∧
    (runJobSync c1Inp).1.output = some "partial out" ∧
    (runJobSync c1Inp).1.error =
      (if "partial err" != "" then some "partial err" else none) :=
  timeout_kill_failed_c1 c1Inp "partial out" "partial err" rfl rfl

/-- C3 counterexample: a job that fails with a non-zero exit code and an
empty stderr ends with status failed but an empty (None) error field, because
line 301 of runner.py overwrites the error field with stderr if stderr else
None. This refutes the claim that every failure path yields a non-empty
error field. -/
theorem failed_error_none_c3_counterexample :
    (runJobSync c3Inp).1.status = JobStatus.failed ∧
    (runJobSync c3Inp).1.error = none := by decide

/-- C3 amended: on a preparation error the result is failed and carries the
exception message in the error field; on any process path (normal exit or
timeout) the collected artifacts are present in the result and the error
field equals the captured stderr when it is non-empty and is None otherwise,
the timeout message included among what is overwritten. -/
theorem failure_fields_c3 (inp : RunInput) :
    (∀ e, inp.prep = Except.error e →
      (runJobSync inp).1.status = JobStatus.failed ∧
      (runJobSync inp).1.error = some e) ∧
    (inp.prep = Except.ok () →
      (runJobSync inp).1.artifacts = inp.artifacts ∧
      (runJobSync inp).1.error =
        (if stderrOf inp.outcome != "" then some (stderrOf inp.outcome)
         else none)) := by
  constructor
  · intro e he
    simp [runJobSync, he]
  · intro hok
    cases hout : inp.outcome <;> simp [runJobSync, hok, hout, stderrOf]

/-- Witness for C3 amended at a concrete input. -/
theorem failure_fields_c3_witness :
    (runJobSync c3Inp).1.artifacts = c3Inp.artifacts ∧
    (runJobSync c3Inp).1.error =
      (if stderrOf c3Inp.outcome != "" then some (stderrOf c3Inp.outcome)
       else none) :=
  (failure_fields_c3 c3Inp).2 rfl

/-- C7 counterexample: with cleanup enabled, the side-effect trace of a run
is workspace deletion first, registry store second: the workspace is removed
while the registry still lacks the terminal result, refuting the claim that
deletion occurs only after the result is recorded. -/
theorem cleanup_before_record_c7_counterexample :
    (runJobSync c7Inp).2 = [RunEvent.deleteWorkspace, RunEvent.recordResult] ∧
    List.indexOf RunEvent.deleteWorkspace (runJobSync c7Inp).2 <
      List.indexOf RunEvent.recordResult (runJobSync c7Inp).2 := by decide

/-- C7 amended: whenever cleanup is enabled, the job id truthy and the
workspace present, every run trace ends with workspace deletion immediately
followed by the registry store: deletion happens after the result object is
fully assembled but strictly before it is recorded in the registry. -/
theorem cleanup_then_record_c7 (inp : RunInput)
    (hc : inp.cleanup = true) (hid : inp.jobId ≠ "")
    (hw : inp.workspaceExists = true) :
    ∃ pre, (runJobSync inp).2 =
      pre ++ [RunEvent.deleteWorkspace, RunEvent.recordResult] := by
  have hb : (inp.cleanup && inp.jobId != "" && inp.workspaceExists) = true := by
    simp [hc, hw, bne_iff_ne, hid]
  cases hp : inp.prep with
  | error e => exact ⟨[], by simp [runJobSync, hp, hb]⟩
  | ok u =>
    cases ho : inp.outcome with
    | normal c o e => exact ⟨[], by simp [runJobSync, hp, ho, hb]⟩
    | timedOut o e =>
      exact ⟨[RunEvent.killProcess], by simp [runJobSync, hp, ho, hb]⟩

/-- Witness for C7 amended at a concrete input. -/
theorem cleanup_then_record_c7_witness :
    ∃ pre, (runJobSync c7Inp).2 =
      pre ++ [RunEvent.deleteWorkspace, RunEvent.recordResult] :=
  cleanup_then_record_c7 c7Inp rfl (by decide) rfl

/-- C2 counterexample: preparing a workspace whose directory already exists
succeeds (mkdir is called with exist_ok=True), and both of two preparation
invocations for the same identifier succeed, refuting the claim that the
second fails with a workspace-conflict error. -/
theorem workspace_reuse_c2_counterexample :
    prepare_workspace_dir [] "jobs" "j1" = Except.ok ["jobs/j1"] ∧
    prepare_workspace_dir ["jobs/j1"] "jobs" "j1" = Except.ok ["jobs/j1"] :=
  ⟨rfl, rfl⟩

/-- C2 amended: workspace preparation never fails on an existing directory:
the first invocation succeeds and yields a directory set containing the
workspace, and re-invoking preparation for the same identifier succeeds
again, reusing the directory set unchanged. -/
theorem workspace_mkdir_exist_ok_c2 (dirs : List String)
    (root jobId : String) :
    ∃ dirs1, prepare_workspace_dir dirs root jobId = Except.ok dirs1 ∧
      prepare_workspace_dir dirs1 root jobId = Except.ok dirs1 ∧
      dirs1.contains (root ++ "/" ++ jobId) = true := by
  by_cases h : dirs.contains (root ++ "/" ++ jobId) = true
  · have hm : root ++ "/" ++ jobId ∈ dirs := by simpa using h
    exact ⟨dirs, by simp [prepare_workspace_dir, mkdirParentsExistOk, hm],
      by simp [prepare_workspace_dir, mkdirParentsExistOk, hm], h⟩
  · have hm : root ++ "/" ++ jobId ∉ dirs := by simpa using h
    have h2 : (dirs ++ [root ++ "/" ++ jobId]).contains
        (root ++ "/" ++ jobId) = true := by simp
    refine ⟨dirs ++ [root ++ "/" ++ jobId], ?_, ?_, h2⟩
    · simp [prepare_workspace_dir, mkdirParentsExistOk, hm]
    · simp [prepare_workspace_dir, mkdirParentsExistOk]

/-- C5 counterexample: cancelling a running job whose result is not yet in
the registry returns True, yet once the supervising thread records its
result the terminal status stored for the job is failed, not cancelled,
refuting the claim that the resulting terminal status is Cancelled. -/
theorem cancel_status_failed_c5_counterexample :
    (cancelWhileRunning c5St c5Inp true).2 = true ∧
    (dictLookup (cancelWhileRunning c5St c5Inp true).1.jobs "job-5").map
      (fun r => r.status) = some JobStatus.failed := by decide

/-- C5 amended: cancelling a non-running job returns False and changes
nothing; cancelling a running job returns True, sends terminate and, when
the child does not exit within the grace period, kill; but for a running
job with no registry entry yet, once the supervising thread finishes, the
status recorded in the registry is failed (the killed child exits non-zero),
not cancelled. -/
theorem cancel_behavior_c5 :
    (∀ st jobId coop, st.running.contains jobId = false →
      cancel_job st jobId coop = (st, false, [])) ∧
    (∀ st jobId coop, st.running.contains jobId = true →
      (cancel_job st jobId coop).2.1 = true ∧
      CancelEvent.terminate ∈ (cancel_job st jobId coop).2.2 ∧
      (coop = false → CancelEvent.kill ∈ (cancel_job st jobId coop).2.2)) ∧
    (∀ st inp coop code out err,
      st.running.contains inp.jobId = true →
      st.jobs.any (fun p => p.1 == inp.jobId) = false →
      inp.prep = Except.ok () →
      inp.outcome = ProcOutcome.normal code out err →
      code ≠ 0 →
      (cancelWhileRunning st inp coop).2 = true ∧
      (dictLookup (cancelWhileRunning st inp coop).1.jobs inp.jobId).map
        (fun r => r.status) = some JobStatus.failed) := by
  refine ⟨?_, ?_, ?_⟩
  · intro st jobId coop h
    simp only [cancel_job]
    rw [h]
    simp
  · intro st jobId coop h
    refine ⟨?_, ?_, ?_⟩
    · simp only [cancel_job]
      rw [h]
      simp
    · simp only [cancel_job]
      rw [h]
      simp
    · intro hcoop
      simp only [cancel_job]
      rw [h, hcoop]
      simp
  · intro st inp coop code out err hrun hreg hprep hout hcode
    have hres : (runJobSync inp).1.status = JobStatus.failed := by
      simp [runJobSync, hprep, hout, hcode]
    have hjobs : (cancel_job st inp.jobId coop).1.jobs = st.jobs := by
      simp only [cancel_job]
      rw [hrun, hreg]
      simp
    have hins : dictInsert st.jobs inp.jobId (runJobSync inp).1 =
        st.jobs ++ [(inp.jobId, (runJobSync inp).1)] := by
      simp only [dictInsert]
      rw [hreg]
      simp
    constructor
    · simp only [cancelWhileRunning, cancel_job]
      rw [hrun]
      simp
    · simp only [cancelWhileRunning]
      rw [hjobs, hins, dictLookup_append_single st.jobs inp.jobId _ hreg]
      simp [hres]

/-- Witness for C5 amended at concrete inputs: a cancel on an idle runner is
a no-op returning False; a cancel on the running job returns True with a
terminate followed by a kill; and the interleaved scenario records status
failed. -/
theorem cancel_behavior_c5_witness :
    cancel_job { jobs := [], running := [] } "job-5" true =
      ({ jobs := [], running := [] }, false, []) ∧
    (cancel_job c5St "job-5" false).2.1 = true ∧
    (dictLookup (cancelWhileRunning c5St c5Inp true).1.jobs "job-5").map
      (fun r => r.status) = some JobStatus.failed :=
  ⟨cancel_behavior_c5.1 { jobs := [], running := [] } "job-5" true (by decide),
   (cancel_behavior_c5.2.1 c5St "job-5" false (by decide)).1,
   (cancel_behavior_c5.2.2 c5St c5Inp true (-15) "" "Terminated" (by decide)
     (by decide) rfl rfl (by decide)).2⟩

/-- C6 counterexample: a declared input named code_dir resolves into the
inputs directory, and the injected environment then binds CODE_DIR to the
resolved input path, not to the code directory: no
ReservedVariableCollisionError exists in the code, and the input binding
silently overrides the reserved one. -/
theorem reserved_collision_c6_counterexample :
    dictLookup (job_env_vars "/ws/code" "/ws/outputs"
      (input_env_vars [("code_dir", "inputs/train.csv")] (fun s => s)))
      "CODE_DIR" = some "inputs/train.csv" ∧
    dictLookup (job_env_vars "/ws/code" "/ws/outputs"
      (input_env_vars [("code_dir", "inputs/train.csv")] (fun s => s)))
      "CODE_DIR" ≠ some "/ws/code" := by
  constructor
  · rfl
  · decide

/-- C6 amended: workspace preparation always injects the two reserved keys
CODE_DIR and OUTPUT_DIR into the environment, but performs no collision
check: whenever a declared input, uppercased, binds one of the reserved
names, the injected environment carries the resolved input path under that
name, overriding the reserved binding, and no error is raised. -/
theorem reserved_env_injected_c6 (codeDirStr outputsDirStr : String)
    (inputs : List (String × String)) (resolve : String → String) :
    (dictLookup (job_env_vars codeDirStr outputsDirStr
      (input_env_vars inputs resolve)) "CODE_DIR").isSome = true ∧
    (dictLookup (job_env_vars codeDirStr outputsDirStr
      (input_env_vars inputs resolve)) "OUTPUT_DIR").isSome = true ∧
    (∀ v, dictLookup (input_env_vars inputs resolve) "CODE_DIR" = some v →
      dictLookup (job_env_vars codeDirStr outputsDirStr
        (input_env_vars inputs resolve)) "CODE_DIR" = some v) ∧
    (∀ v, dictLookup (input_env_vars inputs resolve) "OUTPUT_DIR" = some v →
      dictLookup (job_env_vars codeDirStr outputsDirStr
        (input_env_vars inputs resolve)) "OUTPUT_DIR" = some v) := by
  have hbase1 : dictLookup (dictInsert (dictInsert [] "CODE_DIR" codeDirStr)
      "OUTPUT_DIR" outputsDirStr) "CODE_DIR" = some codeDirStr := by
    rw [dictLookup_dictInsert, if_neg (by decide), dictLookup_dictInsert,
      if_pos rfl]
  have hbase2 : dictLookup (dictInsert (dictInsert [] "CODE_DIR" codeDirStr)
      "OUTPUT_DIR" outputsDirStr) "OUTPUT_DIR" = some outputsDirStr := by
    rw [dictLookup_dictInsert, if_pos rfl]
  refine ⟨?_, ?_, ?_, ?_⟩
  · exact dictLookup_isSome_dictUpdate _ _ _ (by rw [hbase1]; rfl)
  · exact dictLookup_isSome_dictUpdate _ _ _ (by rw [hbase2]; rfl)
  · intro v hv
    exact dictLookup_dictUpdate_of_mem _ _ _ _
      (input_env_vars_keys_nodup inputs resolve) hv
  · intro v hv
    exact dictLookup_dictUpdate_of_mem _ _ _ _
      (input_env_vars_keys_nodup inputs resolve) hv

/-- Witness for C6 amended at concrete inputs: the reserved key is present,
and with a colliding input named code_dir the override conclusion applies. -/
theorem reserved_env_injected_c6_witness :
    (dictLookup (job_env_vars "/ws/code" "/ws/outputs"
      (input_env_vars [("train", "/d/train.csv")] (fun s => s)))
      "CODE_DIR").isSome = true ∧
    dictLookup (job_env_vars "/ws/code" "/ws/outputs"
      (input_env_vars [("code_dir", "X")] (fun s => s))) "CODE_DIR" =
      some "X" :=
  ⟨(reserved_env_injected_c6 "/ws/code" "/ws/outputs"
      [("train", "/d/train.csv")] (fun s => s)).1,
   (reserved_env_injected_c6 "/ws/code" "/ws/outputs"
      [("code_dir", "X")] (fun s => s)).2.2.1 "X" rfl⟩

/-- C4: accept succeeds only from the inbox stage. On an inbox entry whose
name is absent from approved, it moves the job directory to done - the name
is afterwards in done and in neither inbox nor approved - and the recorded
operations put the move strictly before the outputs mkdir, itself strictly
before the result-file copy. On an entry whose status is not inbox it
fails with the invalid-state error, leaves the directories unchanged, and
performs no filesystem operation. -/
theorem accept_inbox_only_c4 (fs : ApprovalFS) (st name fp : String)
    (rfe : Bool) (hap : fs.approved.contains name = false) :
    (st = "inbox" → rfe = true →
      (∃ d, (accept_by_depositing_result fs st name fp rfe).result =
        Except.ok d) ∧
      (accept_by_depositing_result fs st name fp rfe).fs.done.contains name
        = true ∧
      (accept_by_depositing_result fs st name fp rfe).fs.inbox.contains name
        = false ∧
      (accept_by_depositing_result fs st name fp rfe).fs.approved.contains
        name = false ∧
      (accept_by_depositing_result fs st name fp rfe).ops =
        [FSOp.mkdirDoneParent, FSOp.moveJobDir name, FSOp.mkdirOutputs name,
          FSOp.copyResult name fp]) ∧
    (st ≠ "inbox" →
      (∃ m, (accept_by_depositing_result fs st name fp rfe).result =
        Except.error (AcceptError.invalidState m)) ∧
      (accept_by_depositing_result fs st name fp rfe).fs = fs ∧
      (accept_by_depositing_result fs st name fp rfe).ops = []) := by
  have hap2 : name ∉ fs.approved := by simpa using hap
  constructor
  · intro hst hrfe
    subst hst
    subst hrfe
    simp [accept_by_depositing_result, hap2]
  · intro hst
    have hb : (st != "inbox") = true := by simpa using hst
    simp [accept_by_depositing_result, hb]

/-- Witness for C4 at concrete inputs: accepting the inbox entry lands the
job in done; accepting an entry already in done mutates nothing. -/
theorem accept_inbox_only_c4_witness :
    (accept_by_depositing_result ⟨["analysis"], [], []⟩ "inbox" "analysis"
      "res.txt" true).fs.done.contains "analysis" = true ∧
    (accept_by_depositing_result ⟨[], [], ["analysis"]⟩ "done" "analysis"
      "res.txt" true).fs = ⟨[], [], ["analysis"]⟩ :=
  ⟨((accept_inbox_only_c4 ⟨["analysis"], [], []⟩ "inbox" "analysis" "res.txt"
      true (by decide)).1 rfl rfl).2.1,
   ((accept_inbox_only_c4 ⟨[], [], ["analysis"]⟩ "done" "analysis" "res.txt"
      true (by decide)).2 (by decide)).2.1⟩

/-- C10: calling accept on an inbox entry with a result-file path that does
not exist raises FileNotFoundError before any filesystem mutation: the
directories are unchanged (the job stays where it was) and no operation -
no move, no outputs mkdir, no copy - is performed. -/
theorem accept_missing_file_c10 (fs : ApprovalFS) (name fp : String) :
    (∃ m, (accept_by_depositing_result fs "inbox" name fp false).result =
      Except.error (AcceptError.fileNotFound m)) ∧
    (accept_by_depositing_result fs "inbox" name fp false).fs = fs ∧
    (accept_by_depositing_result fs "inbox" name fp false).ops = [] := by
  simp [accept_by_depositing_result]

/-- C8 counterexample: submit a job, accept it (it moves to done), then
submit the same name again: the second submit succeeds because only the
inbox is consulted, and the name now exists in both inbox and done,
refuting both the at-most-one-stage invariant and the claim that submit
rejects a name existing in any stage. -/
theorem stage_invariant_c8_counterexample :
    submit_bash_job ⟨[], [], []⟩ "analysis" =
      Except.ok ⟨["analysis"], [], []⟩ ∧
    (accept_by_depositing_result ⟨["analysis"], [], []⟩ "inbox" "analysis"
      "res.txt" true).fs = ⟨[], [], ["analysis"]⟩ ∧
    submit_bash_job ⟨[], [], ["analysis"]⟩ "analysis" =
      Except.ok ⟨["analysis"], [], ["analysis"]⟩ ∧
    (ApprovalFS.mk ["analysis"] [] ["analysis"]).inbox.contains "analysis"
      = true ∧
    (ApprovalFS.mk ["analysis"] [] ["analysis"]).done.contains "analysis"
      = true :=
  ⟨rfl, rfl, rfl, rfl, rfl⟩

/-- C8 amended: submit consults only the participant inbox: it fails with
the already-exists error exactly when the name is already present in inbox,
and otherwise succeeds - whatever approved and done contain - appending the
name to inbox; a name moved to done by accept can therefore be resubmitted
and exist in two stages at once. -/
theorem submit_inbox_check_c8 (fs : ApprovalFS) (name : String) :
    (fs.inbox.contains name = true →
      submit_bash_job fs name =
        Except.error ("Job " ++ name ++ " already exists in inbox for user")) ∧
    (fs.inbox.contains name = false →
      submit_bash_job fs name =
        Except.ok { fs with inbox := fs.inbox ++ [name] }) := by
  constructor
  · intro h
    simp only [submit_bash_job]
    rw [h]
    simp
  · intro h
    simp only [submit_bash_job]
    rw [h]
    simp

/-- Witness for C8 amended at concrete inputs: a duplicate inbox name is
rejected, while a name present only in done is accepted again. -/
theorem submit_inbox_check_c8_witness :
    submit_bash_job ⟨["a"], [], []⟩ "a" =
      Except.error ("Job " ++ "a" ++ " already exists in inbox for user") ∧
    submit_bash_job ⟨[], [], ["a"]⟩ "a" =
      Except.ok { ApprovalFS.mk [] [] ["a"] with inbox := [] ++ ["a"] } :=
  ⟨(submit_inbox_check_c8 ⟨["a"], [], []⟩ "a").1 rfl,
   (submit_inbox_check_c8 ⟨[], [], ["a"]⟩ "a").2 rfl⟩

/-- The inline gate of the classifier, in negative form: all of the inline
prefixes fail and there is no newline. -/
theorem inline_gate_false_iff (s : String) :
    (inlinePrefixes.all (fun p => !(p.data.isPrefixOf s.data)) = true ∧
      hasNewline s = false) ↔
    (inlinePrefixes.any (fun p => p.data.isPrefixOf s.data) || hasNewline s)
      = false := by
  simp only [List.all_eq_true, List.any_eq_false, Bool.not_eq_true_eq_eq_false,
    Bool.or_eq_false_iff, and_congr_left_iff]
  intro _
  refine ⟨fun h x hx hp => ?_, fun h x hx => ?_⟩
  · rw [h x hx] at hp
    exact absurd hp (by simp)
  · cases hb : x.data.isPrefixOf s.data with
    | false => rfl
    | true => exact absurd hb (h x hx)

/-- C9 counterexample: the string echo hi contains no newline and names an
existing file, so the claimed disambiguation rule would treat it as a file
path; the code nevertheless classifies it as inline content, because any
string starting with the word echo and a space is taken inline without
consulting the filesystem. -/
theorem script_path_heuristic_c9_counterexample :
    hasNewline "echo hi" = false ∧
    c9Fs.fileExists "echo hi" = true ∧
    classifyRunScript c9Fs none "echo hi" = ScriptSource.inline "echo hi" :=
  ⟨rfl, rfl, rfl⟩

/-- C9 amended: the materializer treats the declared run script as a file
path exactly when it starts with none of the inline prefixes, contains no
newline, and either exists as given, or is relative, nonexistent as given,
and its bare filename exists inside the configured code location (itself
truthy, existing and a directory); in every other case it is literal inline
content. -/
theorem script_path_heuristic_c9 (fs : FileSys) (code : Option String)
    (s : String) :
    (∃ p, classifyRunScript fs code s = ScriptSource.fromFile p) ↔
      (inlinePrefixes.all (fun p => !(p.data.isPrefixOf s.data)) = true ∧
       hasNewline s = false ∧
       (fs.fileExists s = true ∨
        (isAbsolute s = false ∧ fs.fileExists s = false ∧
         ∃ c, code = some c ∧ (c != "") = true ∧ fs.fileExists c = true ∧
           fs.isDir c = true ∧
           fs.fileExists (c ++ "/" ++ baseName s) = true))) := by
  by_cases hA : (inlinePrefixes.any (fun p => p.data.isPrefixOf s.data) ||
      hasNewline s) = true
  · constructor
    · intro hex
      obtain ⟨p, hp⟩ := hex
      simp only [classifyRunScript] at hp
      rw [if_pos hA] at hp
      exact ScriptSource.noConfusion hp
    · rintro ⟨ha, hnl, _⟩
      rw [(inline_gate_false_iff s).mp ⟨ha, hnl⟩] at hA
      exact absurd hA (by simp)
  · have hA0 : (inlinePrefixes.any (fun p => p.data.isPrefixOf s.data) ||
        hasNewline s) = false := by
      cases hb : (inlinePrefixes.any (fun p => p.data.isPrefixOf s.data) ||
          hasNewline s) with
      | false => rfl
      | true => exact absurd hb hA
    obtain ⟨ha, hnl⟩ := (inline_gate_false_iff s).mpr hA0
    by_cases hEx : fs.fileExists s = true
    · have hcond : (!isAbsolute s && !fs.fileExists s) = false := by
        rw [hEx]
        simp
      have hclass : classifyRunScript fs code s = ScriptSource.fromFile s := by
        simp only [classifyRunScript]
        rw [hA0, hcond]
        simp [hEx]
      rw [hclass]
      constructor
      · intro _
        exact ⟨ha, hnl, Or.inl hEx⟩
      · intro _
        exact ⟨s, rfl⟩
    · have hExf : fs.fileExists s = false := by
        cases hb : fs.fileExists s with
        | false => rfl
        | true => exact absurd hb hEx
      by_cases hAbs : isAbsolute s = true
      · have hcond : (!isAbsolute s && !fs.fileExists s) = false := by
          rw [hAbs]
          simp
        have hclass : classifyRunScript fs code s = ScriptSource.inline s := by
          simp only [classifyRunScript]
          rw [hA0, hcond]
          simp [hExf]
        rw [hclass]
        constructor
        · rintro ⟨p, hp⟩
          exact ScriptSource.noConfusion hp
        · rintro ⟨_, _, hor⟩
          rcases hor with h1 | ⟨h2, _, _⟩
          · exact absurd h1 (by simp [hExf])
          · rw [hAbs] at h2
            simp at h2
      · have hAbsf : isAbsolute s = false := by
          cases hb : isAbsolute s with
          | false => rfl
          | true => exact absurd hb hAbs
        have hcond : (!isAbsolute s && !fs.fileExists s) = true := by
          rw [hAbsf, hExf]
          rfl
        cases code with
        | none =>
          have hclass : classifyRunScript fs none s = ScriptSource.inline s := by
            simp only [classifyRunScript]
            rw [hA0, hcond]
            simp [hExf]
          rw [hclass]
          constructor
          · rintro ⟨p, hp⟩
            exact ScriptSource.noConfusion hp
          · rintro ⟨_, _, hor⟩
            rcases hor with h1 | ⟨_, _, c, hc, _⟩
            · exact absurd h1 (by simp [hExf])
            · exact Option.noConfusion hc
        | some c =>
          by_cases hC : (c != "" && fs.fileExists c && fs.isDir c) = true
          · obtain ⟨⟨hc1, hc2⟩, hc3⟩ :
                ((c != "") = true ∧ fs.fileExists c = true) ∧
                  fs.isDir c = true := by simpa using hC
            by_cases hPot : fs.fileExists (c ++ "/" ++ baseName s) = true
            · have hclass : classifyRunScript fs (some c) s =
                  ScriptSource.fromFile (c ++ "/" ++ baseName s) := by
                simp only [classifyRunScript]
                rw [hA0, hcond]
                simp [hC, hPot]
              rw [hclass]
              constructor
              · intro _
                exact ⟨ha, hnl, Or.inr ⟨hAbsf, hExf, c, rfl, hc1, hc2, hc3,
                  hPot⟩⟩
              · intro _
                exact ⟨c ++ "/" ++ baseName s, rfl⟩
            · have hPotf : fs.fileExists (c ++ "/" ++ baseName s) = false := by
                cases hb : fs.fileExists (c ++ "/" ++ baseName s) with
                | false => rfl
                | true => exact absurd hb hPot
              have hclass : classifyRunScript fs (some c) s =
                  ScriptSource.inline s := by
                simp only [classifyRunScript]
                rw [hA0, hcond]
                simp [hC, hPotf, hExf]
              rw [hclass]
              constructor
              · rintro ⟨p, hp⟩
                exact ScriptSource.noConfusion hp
              · rintro ⟨_, _, hor⟩
                rcases hor with h1 | ⟨_, _, c2, hc2, _, _, _, hpot2⟩
                · exact absurd h1 (by simp [hExf])
                · injection hc2 with hcc
                  subst hcc
                  exact absurd hpot2 (by simp [hPotf])
          · have hCf : (c != "" && fs.fileExists c && fs.isDir c) = false := by
              cases hb : (c != "" && fs.fileExists c && fs.isDir c) with
              | false => rfl
              | true => exact absurd hb hC
            have hclass : classifyRunScript fs (some c) s =
                ScriptSource.inline s := by
              simp only [classifyRunScript]
              rw [hA0, hcond]
              simp [hCf, hExf]
            rw [hclass]
            constructor
            · rintro ⟨p, hp⟩
              exact ScriptSource.noConfusion hp
            · rintro ⟨_, _, hor⟩
              rcases hor with h1 | ⟨_, _, c2, hc2, h1, h2, h3⟩
              · exact absurd h1 (by simp [hExf])
              · injection hc2 with hcc
                subst hcc
                simp [h1, h2, h3.1] at hCf

/-- Witness for C9 amended: a plain relative script name that exists is
classified as a file path. -/
theorem script_path_heuristic_c9_witness :
    ∃ p, classifyRunScript c9Fs2 none "run.sh" = ScriptSource.fromFile p :=
  (script_path_heuristic_c9 c9Fs2 none "run.sh").mpr ⟨rfl, rfl, Or.inl rfl⟩

end SyftJob
